import Mathlib

/-!
Verification of the shopping-assistant repository against its specification.

The repository has three Python files:
  * `tools.py`  — mock data tables and tool functions (dataclass based),
  * `agent.py`  — the `ShoppingAgent` query parser and orchestrator,
  * `main.py`   — an alternate `ShoppingAssistant` variant (dict based).

Monetary amounts that Python stores as `float` are modelled as exact
rationals (`ℚ`); every amount appearing in the programs is a short decimal
literal, and the properties under study concern the arithmetic expressions
themselves, not IEEE rounding.  `datetime.now()` is modelled by a `now : Nat`
day-number parameter, and "now + N days" by `now + N`.
-/

/-! ## Character and string primitives (Python `str.lower`, `in`, `re.search`) -/

/-- ASCII lower-casing of a single character, as Python's `str.lower` acts on
the ASCII letters (the only characters occurring in the repository's data). -/
def lowerChar (c : Char) : Char :=
  if c = 'A' then 'a' else if c = 'B' then 'b' else if c = 'C' then 'c'
  else if c = 'D' then 'd' else if c = 'E' then 'e' else if c = 'F' then 'f'
  else if c = 'G' then 'g' else if c = 'H' then 'h' else if c = 'I' then 'i'
  else if c = 'J' then 'j' else if c = 'K' then 'k' else if c = 'L' then 'l'
  else if c = 'M' then 'm' else if c = 'N' then 'n' else if c = 'O' then 'o'
  else if c = 'P' then 'p' else if c = 'Q' then 'q' else if c = 'R' then 'r'
  else if c = 'S' then 's' else if c = 'T' then 't' else if c = 'U' then 'u'
  else if c = 'V' then 'v' else if c = 'W' then 'w' else if c = 'X' then 'x'
  else if c = 'Y' then 'y' else if c = 'Z' then 'z' else c

/-- Python `s.lower()` (per-character ASCII lowering). -/
def lowerStr (s : String) : String := ⟨s.data.map lowerChar⟩

/-- Python's substring test `needle in hay` on strings, over character lists. -/
def listContainsSub (hay needle : List Char) : Bool :=
  match hay with
  | [] => needle.isEmpty
  | c :: t => needle.isPrefixOf (c :: t) || listContainsSub t needle

/-- Python `needle in hay` for `String`s. -/
def strContainsSub (hay needle : String) : Bool :=
  listContainsSub hay.data needle.data

/-- The single-quote character `'`, written via its code point. -/
def squote : Char := Char.ofNat 39

/-- Python regex `\w` (ASCII fragment, the only characters the inputs use). -/
def isWordChar (c : Char) : Bool := c.isAlphanum || c = '_'

/-- Whether the text following the captured token satisfies the closing part of
the pattern:  no closing character required, or the next character equals it. -/
def closeOk : Option Char → List Char → Bool
  | none, _ => true
  | some c, c2 :: _ => c2 = c
  | some _, [] => false

/-- One attempted match of the pattern  `lit` ++ `ok`⁺ ++ (closing char?)  at the
head of `l`, returning the captured token (the maximal `ok`-run after `lit`).
This is the anchored step of `re.search` for the three patterns the agent uses
(`under \$(\d+)`, `size (\w+)`, `code '(\w+)'`). -/
def tokenAt (lit : List Char) (ok : Char → Bool) (close : Option Char)
    (l : List Char) : Option (List Char) :=
  if lit.isPrefixOf l then
    let tok := (l.drop lit.length).takeWhile ok
    if tok.isEmpty then none
    else if closeOk close ((l.drop lit.length).drop tok.length) then some tok else none
  else none

/-- `re.search` for the pattern `lit` ++ `ok`⁺ ++ (closing char?): leftmost
starting position wins, as in Python. -/
def findTok (lit : List Char) (ok : Char → Bool) (close : Option Char) :
    List Char → Option (List Char)
  | [] => tokenAt lit ok close []
  | c :: rest =>
    match tokenAt lit ok close (c :: rest) with
    | some tok => some tok
    | none => findTok lit ok close rest

/-- Whether some occurrence of `lit` in `l` is immediately followed by a
character satisfying `ok` (used to state "the marker is nowhere followed by a
digit"). -/
def anyOccFollowed (lit : List Char) (ok : Char → Bool) : List Char → Bool
  | [] => false
  | c :: t =>
    (lit.isPrefixOf (c :: t) &&
      (match (c :: t).drop lit.length with
       | d :: _ => ok d
       | [] => false)) || anyOccFollowed lit ok t

/-- Numeric value of a digit string (the value `float` gives an all-digit
capture group such as `(\d+)`). -/
def digitsToNat (l : List Char) : Nat := l.foldl (fun a c => 10 * a + (c.toNat - 48)) 0

/-! Helpers for Python's `s.split(sep)[1]` and `s.split()[0]` (used by the
alternate `main.py` parser). -/

/-- The text after the first occurrence of `sep` in `l`; `none` when `sep` does
not occur (in Python, `split(sep)[1]` would then raise `IndexError`). -/
def afterFirstOcc (sep : List Char) : List Char → Option (List Char)
  | [] => if sep.isPrefixOf ([] : List Char) then some [] else none
  | c :: t =>
    if sep.isPrefixOf (c :: t) then some ((c :: t).drop sep.length)
    else afterFirstOcc sep t

/-- The prefix of `l` up to (excluding) the next occurrence of `sep`. -/
def upToNextOcc (sep : List Char) : List Char → List Char
  | [] => []
  | c :: t => if sep.isPrefixOf (c :: t) then [] else c :: upToNextOcc sep t

/-- Python `s.split(sep)[1]`: the segment strictly between the first occurrence
of `sep` and the following one (or the end); `none` models the `IndexError`
raised when `sep` does not occur. -/
def pySplitSecond (sep l : List Char) : Option (List Char) :=
  (afterFirstOcc sep l).map (upToNextOcc sep)

/-- Python `s.split()[0]`: the first maximal whitespace-free token; `none`
models the `IndexError` on an all-whitespace string. -/
def firstToken (l : List Char) : Option (List Char) :=
  let t := (l.dropWhile Char.isWhitespace).takeWhile (fun c => !c.isWhitespace)
  if t.isEmpty then none else some t

/-- Python's `float` string parser, restricted to the finite decimal forms
(`[+-] digits [. digits] [e [+-] digits]`); the special forms `inf`/`nan` and
digit underscores never arise from the repository's inputs and are omitted.
`none` models the `ValueError` raised on malformed text. -/
def pyFloat (l : List Char) : Option ℚ :=
  let t := ((l.dropWhile Char.isWhitespace).reverse.dropWhile Char.isWhitespace).reverse
  let sgnRest : ℚ × List Char :=
    match t with
    | '-' :: r => (-1, r)
    | '+' :: r => (1, r)
    | r => (1, r)
  let sgn := sgnRest.1
  let t1 := sgnRest.2
  let ip := t1.takeWhile Char.isDigit
  let r1 := t1.drop ip.length
  let fpRest : List Char × List Char :=
    match r1 with
    | '.' :: r => (r.takeWhile Char.isDigit, r.drop (r.takeWhile Char.isDigit).length)
    | r => ([], r)
  let fp := fpRest.1
  let r2 := fpRest.2
  if ip.isEmpty && fp.isEmpty then none
  else
    let base : ℚ := (digitsToNat ip : ℚ) + (digitsToNat fp : ℚ) / (10 : ℚ) ^ fp.length
    match r2 with
    | [] => some (sgn * base)
    | e :: r3 =>
      if e = 'e' ∨ e = 'E' then
        let esgnRest : Bool × List Char :=
          match r3 with
          | '-' :: r => (true, r)
          | '+' :: r => (false, r)
          | r => (false, r)
        let ed := esgnRest.2.takeWhile Char.isDigit
        if ed.isEmpty || !(esgnRest.2.drop ed.length).isEmpty then none
        else some (sgn * base *
          (if esgnRest.1 then 1 / (10 : ℚ) ^ digitsToNat ed else (10 : ℚ) ^ digitsToNat ed))
      else none

/-- A guarded filter test: an absent (`none`) criterion imposes no constraint,
a present one is checked by `f` — the shape of every
`if 'key' in query and not ok: matches = False` step of `search_products`. -/
def optCheck {α : Type} (o : Option α) (f : α → Bool) : Bool :=
  match o with
  | some a => f a
  | none => true

/-! ## Monetary constants

The decimal price literals of the source (`35.99`, …) are constructed here in
lowest terms through `Rat`'s constructor, so that the kernel can evaluate
comparisons on them; each constant is proved equal to its decimal literal in
the bridge theorems further below. -/

def q35_99 : ℚ := ⟨3599, 100, by norm_num, by norm_num⟩
def q65_99 : ℚ := ⟨6599, 100, by norm_num, by norm_num⟩
def q79_99 : ℚ := ⟨7999, 100, by norm_num, by norm_num⟩
def q89_99 : ℚ := ⟨8999, 100, by norm_num, by norm_num⟩
def q5_99 : ℚ := ⟨599, 100, by norm_num, by norm_num⟩
def q7_99 : ℚ := ⟨799, 100, by norm_num, by norm_num⟩
def q4_99 : ℚ := ⟨499, 100, by norm_num, by norm_num⟩
def q6_99 : ℚ := ⟨699, 100, by norm_num, by norm_num⟩
def q45_99 : ℚ := ⟨4599, 100, by norm_num, by norm_num⟩
def q59_99 : ℚ := ⟨5999, 100, by norm_num, by norm_num⟩

/-! ## `tools.py`: data model and tool functions -/

namespace Tools

/-- `tools.Product` dataclass. -/
structure Product where
  id : String
  name : String
  price : ℚ
  color : String
  size : String
  store : String
  in_stock : Bool
deriving DecidableEq

/-- `tools.ShippingEstimate` dataclass; the delivery date is the day number
`now + estimated_days` (the `strftime` rendering is not modelled). -/
structure ShippingEstimate where
  available : Bool
  cost : ℚ
  estimated_days : Nat
  estimated_delivery_date : Nat
deriving DecidableEq

/-- `tools.DiscountResult` dataclass. -/
structure DiscountResult where
  code : String
  valid : Bool
  discount_percentage : ℚ
  final_price : ℚ
deriving DecidableEq

/-- `tools.PriceComparison` dataclass. -/
structure PriceComparison where
  store : String
  price : ℚ
  in_stock : Bool
  link : String
deriving DecidableEq

/-- `tools.ReturnPolicy` dataclass. -/
structure ReturnPolicy where
  store : String
  days_to_return : Nat
  free_returns : Bool
  conditions : List String
deriving DecidableEq

/-- Per-store record of `MOCK_STORES`. -/
structure StoreInfo where
  shipping_base : ℚ
  free_shipping_threshold : ℚ
deriving DecidableEq

def floralSkirt : Product := ⟨"1", "Floral Summer Skirt", q35_99, "Blue", "S", "FashionHub", true⟩
def whiteSneakers : Product := ⟨"2", "White Sneakers", q65_99, "White", "8", "SneakerWorld", true⟩
def denimJacket : Product := ⟨"3", "Casual Denim Jacket", q79_99, "Blue", "M", "SiteA", true⟩
def cocktailDress : Product := ⟨"4", "Cocktail Dress", q89_99, "Black", "M", "SiteB", true⟩

/-- `tools.MOCK_PRODUCTS`. -/
def MOCK_PRODUCTS : List Product := [floralSkirt, whiteSneakers, denimJacket, cocktailDress]

/-- The keys of `tools.MOCK_STORES` in insertion order (Python dicts iterate in
insertion order; `compare_prices` relies on this). -/
def STORE_NAMES : List String := ["FashionHub", "SneakerWorld", "SiteA", "SiteB"]

/-- `tools.MOCK_STORES` as a lookup function. -/
def MOCK_STORES (store : String) : Option StoreInfo :=
  if store = "FashionHub" then some ⟨q5_99, 50⟩
  else if store = "SneakerWorld" then some ⟨q7_99, 75⟩
  else if store = "SiteA" then some ⟨q4_99, 60⟩
  else if store = "SiteB" then some ⟨q6_99, 80⟩
  else none

/-- `tools.MOCK_RETURN_POLICIES` as a lookup function (`dict.get`). -/
def MOCK_RETURN_POLICIES (store : String) : Option ReturnPolicy :=
  if store = "FashionHub" then
    some ⟨"FashionHub", 30, true, ["Items must be unworn", "Original tags attached"]⟩
  else if store = "SneakerWorld" then
    some ⟨"SneakerWorld", 45, true, ["Unworn condition", "Original box required"]⟩
  else if store = "SiteA" then
    some ⟨"SiteA", 14, false, ["Store credit only", "Within 14 days"]⟩
  else if store = "SiteB" then
    some ⟨"SiteB", 30, true, ["Free returns within 30 days", "Original condition"]⟩
  else none

/-- The search criteria dict built by `agent.ShoppingAgent._parse_query`; a
`none` field models an absent key. -/
structure Criteria where
  name : Option String
  max_price : Option ℚ
  color : Option String
  size : Option String
  discount_code : Option String
deriving DecidableEq

/-- `tools.search_products`: keep a product when every provided criterion
matches (name: case-insensitive substring; max_price: `price > max` rejects;
color and size: case-insensitive equality). -/
def search_products (query : Criteria) : List Product :=
  MOCK_PRODUCTS.filter fun product =>
    optCheck query.name (fun n => listContainsSub (lowerStr product.name).data (lowerStr n).data)
    && optCheck query.max_price (fun m => !decide (product.price > m))
    && optCheck query.color (fun c => lowerStr c = lowerStr product.color)
    && optCheck query.size (fun s => lowerStr s = lowerStr product.size)

/-- `tools.estimate_shipping`; `MOCK_STORES[product.store]` raises `KeyError`
for a store outside the table, modelled by `none`.  The unused `delivery_date`
parameter of the Python function is immediately overwritten there and is
likewise ignored here. -/
def estimate_shipping (now : Nat) (product : Product) (_delivery_date : Option String) :
    Option ShippingEstimate :=
  match MOCK_STORES product.store with
  | none => none
  | some store_info =>
    let shipping_cost :=
      if product.price ≥ store_info.free_shipping_threshold then 0 else store_info.shipping_base
    let estimated_days := if shipping_cost = 0 then 3 else 5
    some ⟨true, shipping_cost, estimated_days, now + estimated_days⟩

/-- The `valid_codes` dict of `tools.check_discount`. -/
def valid_codes (code : String) : Option ℚ :=
  if code = "SAVE10" then some 10
  else if code = "SUMMER20" then some 20
  else if code = "WELCOME15" then some 15
  else none

/-- `tools.check_discount`. -/
def check_discount (product : Product) (code : String) : DiscountResult :=
  match valid_codes code with
  | some discount => ⟨code, true, discount, product.price * (1 - discount / 100)⟩
  | none => ⟨code, false, 0, product.price⟩

/-- Python `s.replace(' ', '-')` (single-character replacement). -/
def dashSpaces (s : String) : String :=
  ⟨s.data.map fun c => if c = ' ' then '-' else c⟩

/-- `tools.compare_prices`.  Python's process-randomised `hash` is modelled by
an explicit parameter `h : String → ℤ`; `hash(store + product.name) % 30 - 15`
uses Python's floor-mod, which `Int.emod` matches for a positive modulus, and
`bool(hash(...) % 2)` is `% 2 ≠ 0`. -/
def compare_prices (h : String → ℤ) (product : Product) : List PriceComparison :=
  (STORE_NAMES.filter fun store => store ≠ product.store).map fun store =>
    let price_diff : ℤ := h (store ++ product.name) % 30 - 15
    ⟨store, product.price + (price_diff : ℚ),
      decide (h (store ++ product.name) % 2 ≠ 0),
      "https://" ++ lowerStr store ++ ".com/products/" ++ dashSpaces (lowerStr product.name)⟩

/-- `tools.get_return_policy` (`MOCK_RETURN_POLICIES.get(store)`). -/
def get_return_policy (store : String) : Option ReturnPolicy :=
  MOCK_RETURN_POLICIES store

end Tools

/-! ## `agent.py`: the `ShoppingAgent` query parser and orchestration tests -/

namespace Agent

/-- The fixed color keyword list of `ShoppingAgent._parse_query`. -/
def colorsList : List String :=
  ["white", "black", "blue", "red", "green", "yellow", "purple", "pink"]

/-- The fixed product-type keyword list of `ShoppingAgent._parse_query`. -/
def productTypes : List String := ["skirt", "sneakers", "jacket", "dress"]

/-- The literal `"under $"`. -/
def underLit : List Char := "under $".data

/-- The literal `"size "` of the regex `size (\w+)`. -/
def sizeLit : List Char := "size ".data

/-- The literal `code '` of the regex `code '(\w+)'` (apostrophe via `squote`). -/
def codeLit : List Char := "code ".data ++ [squote]

/-- `ShoppingAgent._parse_query`: the query is lower-cased first, then each
field is extracted independently (substring guards plus `re.search`); a field
stays `none` when its marker or regex does not match. -/
def parse_query (query : String) : Tools.Criteria :=
  let l := (lowerStr query).data
  let max_price : Option ℚ :=
    if listContainsSub l underLit then
      (findTok underLit Char.isDigit none l).map fun ds => (digitsToNat ds : ℚ)
    else none
  let size : Option String :=
    if listContainsSub l "size".data then
      (findTok sizeLit isWordChar none l).map fun cs => String.mk cs
    else none
  let color : Option String := colorsList.find? fun c => listContainsSub l c.data
  let name : Option String := productTypes.find? fun t => listContainsSub l t.data
  let discount_code : Option String :=
    if listContainsSub l "code".data then
      (findTok codeLit isWordChar (some squote) l).map fun cs => String.mk cs
    else none
  ⟨name, max_price, color, size, discount_code⟩

/-- The search guard of `ShoppingAgent.process_query`:
`any(key in parsed_query for key in ['name', 'max_price', 'color', 'size'])`. -/
def searchTriggered (c : Tools.Criteria) : Bool :=
  c.name.isSome || c.max_price.isSome || c.color.isSome || c.size.isSome

/-- Example query 1 printed by `agent.main`, the end-to-end query of the spec. -/
def exampleQuery : String :=
  "Find a floral skirt under $40 in size S. Is it in stock, and can I apply a discount code 'SAVE10'?"

end Agent

/-! ## `main.py`: the alternate `ShoppingAssistant` variant -/

namespace Assistant

/-- A product dict of the `mock_products` table in `main.search_products`. -/
structure Product2 where
  name : String
  price : ℚ
  color : String
  size : String
  store : String
deriving DecidableEq

def redDress : Product2 := ⟨"Red Summer Dress", q45_99, "red", "M", "FashionHub"⟩
def blueJeans : Product2 := ⟨"Blue Jeans", q59_99, "blue", "L", "ShopStyle"⟩
def blackSneakers : Product2 := ⟨"Black Sneakers", q79_99, "black", "10", "ShoePalace"⟩

/-- `main.search_products`'s `mock_products` table. -/
def mock_products : List Product2 := [redDress, blueJeans, blackSneakers]

/-- `main.search_products` (name: case-insensitive substring; color and size:
plain equality; price within `[min_price, max_price]`); the Python defaults are
`min_price=0`, `max_price=1000`. -/
def search_products (name color : Option String) (min_price max_price : ℚ)
    (size : Option String) : List Product2 :=
  mock_products.filter fun p =>
    optCheck name (fun n => listContainsSub (lowerStr p.name).data (lowerStr n).data)
    && optCheck color (fun c => c = p.color)
    && decide (min_price ≤ p.price) && decide (p.price ≤ max_price)
    && optCheck size (fun s => s = p.size)

/-- Result of `main.estimate_shipping`; the delivery estimate is the rendered
string `f"{estimated_days} business days after order"`. -/
structure ShipEstimate2 where
  feasible : Bool
  cost : ℚ
  delivery_date : String
deriving DecidableEq

/-- `main.estimate_shipping`: a flat binary check on the location only. -/
def estimate_shipping (user_location : String) (_delivery_date : String) : ShipEstimate2 :=
  let inNY := listContainsSub user_location.data "New York".data
  let shipping_cost : ℚ := if inNY then 5 else 15
  let estimated_days : Nat := if inNY then 3 else 7
  ⟨true, shipping_cost, toString estimated_days ++ " business days after order"⟩

/-- The `promo_db` dict of `main.apply_promo_code` (fractions, not percent). -/
def promo_db (code : String) : Option ℚ :=
  if code = "SUMMER20" then some 0.2
  else if code = "FREESHIP" then some 0
  else none

/-- `main.apply_promo_code`; the promo code may be `None`
(`promo_db.get(promo_code, 0)` then yields 0). -/
def apply_promo_code (base_price : ℚ) (promo_code : Option String) : ℚ :=
  let discount := match promo_code with
    | some c => (promo_db c).getD 0
    | none => 0
  base_price * (1 - discount)

/-- `main.check_return_policy` — `policies.get(store_name, "No policy found")`. -/
def check_return_policy (store_name : String) : String :=
  if store_name = "FashionHub" then "30-day returns"
  else if store_name = "ShopStyle" then "14-day returns"
  else if store_name = "StyleMart" then "7-day returns"
  else if store_name = "TrendyStore" then "Exchange only"
  else if store_name = "DenimWorld" then "Store credit only"
  else "No policy found"

/-- The criteria dict built by `ShoppingAssistant.parse_query`; `promo_code`
starts as `None` and `location` defaults to `"New York"`. -/
structure MainCriteria where
  promo_code : Option String
  location : String
  max_price : Option ℚ
  color : Option String
  product : Option String
deriving DecidableEq

/-- One extraction step `query.split(marker)[1].split()[0]` of
`ShoppingAssistant.parse_query`; `Except.error ()` models the `IndexError`
raised when the split produces no second part or no token. -/
def splitExtract (marker : List Char) (q : List Char) : Except Unit (List Char) :=
  match pySplitSecond marker q with
  | none => .error ()
  | some seg =>
    match firstToken seg with
    | none => .error ()
    | some tok => .ok tok

/-- `ShoppingAssistant.parse_query`.  The `"under $"`, `"promo code"` and
`"shipping to "` guards test the raw query; the color and product keyword tests
use `query.lower()`.  The `max_price` extraction is unguarded Python
(`float(query.split("under $")[1].split()[0])`), so a malformed price raises —
modelled by `Except.error ()`, evaluated in the same statement order as the
Python body. -/
def parse_query (query : String) : Except Unit MainCriteria := do
  let max_price : Option ℚ ←
    if listContainsSub query.data Agent.underLit then do
      let tok ← splitExtract Agent.underLit query.data
      match pyFloat tok with
      | none => .error ()
      | some v => pure (some v)
    else pure none
  let promo_code : Option String ←
    if listContainsSub query.data "promo code".data then do
      let tok ← splitExtract "promo code ".data query.data
      pure (some (String.mk tok))
    else pure none
  let location : String ←
    if listContainsSub query.data "shipping to ".data then do
      let tok ← splitExtract "shipping to ".data query.data
      pure (String.mk tok)
    else pure "New York"
  let lowered := (lowerStr query).data
  let color : Option String :=
    (["red", "blue", "black"] : List String).find? fun c => listContainsSub lowered c.data
  let product : Option String :=
    if listContainsSub lowered "dress".data then some "dress"
    else if listContainsSub lowered "jeans".data then some "jeans"
    else if listContainsSub lowered "sneakers".data then some "sneakers"
    else none
  pure ⟨promo_code, location, max_price, color, product⟩

end Assistant

/-! ## Specification-side predicates and fixtures for the claims -/

namespace Spec

/-- The per-filter matching predicate exactly as claim C2 words it: name as a
case-insensitive substring, color equality case-insensitive, size equality
(plain, as stated), price at most `max_price`; absent filters impose no
constraint. -/
def matchesClaim (q : Tools.Criteria) (p : Tools.Product) : Prop :=
  (∀ n, q.name = some n → listContainsSub (lowerStr p.name).data (lowerStr n).data = true) ∧
  (∀ m, q.max_price = some m → p.price ≤ m) ∧
  (∀ c, q.color = some c → lowerStr c = lowerStr p.color) ∧
  (∀ s, q.size = some s → s = p.size)

/-- The amended matching predicate: as `matchesClaim` but with size equality
case-insensitive, like color. -/
def matchesAmended (q : Tools.Criteria) (p : Tools.Product) : Prop :=
  (∀ n, q.name = some n → listContainsSub (lowerStr p.name).data (lowerStr n).data = true) ∧
  (∀ m, q.max_price = some m → p.price ≤ m) ∧
  (∀ c, q.color = some c → lowerStr c = lowerStr p.color) ∧
  (∀ s, q.size = some s → lowerStr s = lowerStr p.size)

/-- Claim C2's filter wording applied to the alternate variant
(`main.search_products`): name as a case-insensitive substring, color equality
case-insensitive as the claim states it, price within `[min_price, max_price]`,
size equality as the claim states it; absent filters impose no constraint. -/
def matchesClaimMain (name color : Option String) (min_price max_price : ℚ)
    (size : Option String) (p : Assistant.Product2) : Prop :=
  (∀ n, name = some n → listContainsSub (lowerStr p.name).data (lowerStr n).data = true) ∧
  (∀ c, color = some c → lowerStr c = lowerStr p.color) ∧
  (min_price ≤ p.price ∧ p.price ≤ max_price) ∧
  (∀ s, size = some s → s = p.size)

/-- The alternate variant's actual per-filter predicate: name as a
case-insensitive substring, color and size by plain (case-sensitive) equality,
price within `[min_price, max_price]`; absent filters impose no constraint. -/
def matchesMainAmended (name color : Option String) (min_price max_price : ℚ)
    (size : Option String) (p : Assistant.Product2) : Prop :=
  (∀ n, name = some n → listContainsSub (lowerStr p.name).data (lowerStr n).data = true) ∧
  (∀ c, color = some c → c = p.color) ∧
  (min_price ≤ p.price ∧ p.price ≤ max_price) ∧
  (∀ s, size = some s → s = p.size)

/-- Criteria with no filter provided. -/
def emptyCriteria : Tools.Criteria := ⟨none, none, none, none, none⟩

/-- Criteria asking only for color `"blue"`. -/
def blueCriteria : Tools.Criteria := ⟨none, none, some "blue", none, none⟩

/-- Criteria asking only for size `"m"` (lower case). -/
def sizeMCriteria : Tools.Criteria := ⟨none, none, none, some "m", none⟩

/-- Every marker either parser reacts to: the substring guards and regex
markers of `agent._parse_query` plus those of `main.parse_query`, and the two
keyword lists.  A query containing none of these (neither raw nor lower-cased)
contains "no recognized keyword". -/
def KEYWORDS : List String :=
  ["under $", "size", "code", "promo code", "shipping to ",
   "white", "black", "blue", "red", "green", "yellow", "purple", "pink",
   "skirt", "sneakers", "jacket", "dress", "jeans"]

/-- A string is all-lowercase when ASCII lowering fixes it. -/
def lowerFixed (s : String) : Bool := lowerStr s = s

/-- All four string-valued fields of a criteria record are all-lowercase. -/
def critAllLower (c : Tools.Criteria) : Bool :=
  c.name.all lowerFixed && c.color.all lowerFixed &&
  c.size.all lowerFixed && c.discount_code.all lowerFixed

end Spec

/-! ## Bridge lemmas: the constructed rationals are the source's decimal literals -/

theorem mk_rat_eq_div (n : ℤ) (d : ℕ) (h1 : d ≠ 0) (h2 : n.natAbs.Coprime d) :
    (⟨n, d, h1, h2⟩ : ℚ) = (n : ℚ) / (d : ℚ) := by
  rw [Rat.mk'_eq_divInt, Rat.divInt_eq_div]; norm_num

theorem q35_99_eq : q35_99 = 35.99 := by rw [q35_99, mk_rat_eq_div]; norm_num

theorem q65_99_eq : q65_99 = 65.99 := by rw [q65_99, mk_rat_eq_div]; norm_num

theorem q79_99_eq : q79_99 = 79.99 := by rw [q79_99, mk_rat_eq_div]; norm_num

theorem q89_99_eq : q89_99 = 89.99 := by rw [q89_99, mk_rat_eq_div]; norm_num

theorem q5_99_eq : q5_99 = 5.99 := by rw [q5_99, mk_rat_eq_div]; norm_num

theorem q7_99_eq : q7_99 = 7.99 := by rw [q7_99, mk_rat_eq_div]; norm_num

theorem q4_99_eq : q4_99 = 4.99 := by rw [q4_99, mk_rat_eq_div]; norm_num

theorem q6_99_eq : q6_99 = 6.99 := by rw [q6_99, mk_rat_eq_div]; norm_num

theorem q45_99_eq : q45_99 = 45.99 := by rw [q45_99, mk_rat_eq_div]; norm_num

theorem q59_99_eq : q59_99 = 59.99 := by rw [q59_99, mk_rat_eq_div]; norm_num

/-! ## Helper lemmas on the string primitives -/

theorem lowerChar_idem (c : Char) : lowerChar (lowerChar c) = lowerChar c := by
  by_cases h1 : c = 'A'; · subst h1; decide
  by_cases h2 : c = 'B'; · subst h2; decide
  by_cases h3 : c = 'C'; · subst h3; decide
  by_cases h4 : c = 'D'; · subst h4; decide
  by_cases h5 : c = 'E'; · subst h5; decide
  by_cases h6 : c = 'F'; · subst h6; decide
  by_cases h7 : c = 'G'; · subst h7; decide
  by_cases h8 : c = 'H'; · subst h8; decide
  by_cases h9 : c = 'I'; · subst h9; decide
  by_cases h10 : c = 'J'; · subst h10; decide
  by_cases h11 : c = 'K'; · subst h11; decide
  by_cases h12 : c = 'L'; · subst h12; decide
  by_cases h13 : c = 'M'; · subst h13; decide
  by_cases h14 : c = 'N'; · subst h14; decide
  by_cases h15 : c = 'O'; · subst h15; decide
  by_cases h16 : c = 'P'; · subst h16; decide
  by_cases h17 : c = 'Q'; · subst h17; decide
  by_cases h18 : c = 'R'; · subst h18; decide
  by_cases h19 : c = 'S'; · subst h19; decide
  by_cases h20 : c = 'T'; · subst h20; decide
  by_cases h21 : c = 'U'; · subst h21; decide
  by_cases h22 : c = 'V'; · subst h22; decide
  by_cases h23 : c = 'W'; · subst h23; decide
  by_cases h24 : c = 'X'; · subst h24; decide
  by_cases h25 : c = 'Y'; · subst h25; decide
  by_cases h26 : c = 'Z'; · subst h26; decide
  have hfix : lowerChar c = c := by
    simp only [lowerChar, if_neg h1, if_neg h2, if_neg h3, if_neg h4, if_neg h5, if_neg h6,
      if_neg h7, if_neg h8, if_neg h9, if_neg h10, if_neg h11, if_neg h12, if_neg h13,
      if_neg h14, if_neg h15, if_neg h16, if_neg h17, if_neg h18, if_neg h19, if_neg h20,
      if_neg h21, if_neg h22, if_neg h23, if_neg h24, if_neg h25, if_neg h26]
  rw [hfix]; exact hfix

theorem mem_lowerStr_fixed (s : String) : ∀ c ∈ (lowerStr s).data, lowerChar c = c := by
  intro c hc
  change c ∈ s.data.map lowerChar at hc
  obtain ⟨a, _, rfl⟩ := List.mem_map.mp hc
  exact lowerChar_idem a

theorem lowerFixed_of_chars {cs : List Char} (h : ∀ c ∈ cs, lowerChar c = c) :
    Spec.lowerFixed ⟨cs⟩ = true := by
  simp only [Spec.lowerFixed, decide_eq_true_eq]
  show String.mk (cs.map lowerChar) = String.mk cs
  exact congrArg String.mk ((List.map_congr_left h).trans cs.map_id)

theorem tokenAt_sublist {lit : List Char} {ok : Char → Bool} {close : Option Char}
    {l tok : List Char} (h : tokenAt lit ok close l = some tok) : tok.Sublist l := by
  simp only [tokenAt] at h
  split_ifs at h with h1 h2 h3
  injection h with h4
  subst h4
  exact (List.takeWhile_sublist _).trans (List.drop_sublist _ _)

theorem findTok_sublist (lit : List Char) (ok : Char → Bool) (close : Option Char)
    (l : List Char) : ∀ tok, findTok lit ok close l = some tok → tok.Sublist l := by
  induction l with
  | nil =>
    intro tok h
    simp only [findTok] at h
    exact tokenAt_sublist h
  | cons c rest ih =>
    intro tok h
    simp only [findTok] at h
    cases hta : tokenAt lit ok close (c :: rest) with
    | some t =>
      rw [hta] at h
      injection h with h4
      subst h4
      exact tokenAt_sublist hta
    | none =>
      rw [hta] at h
      simp only at h
      exact (ih tok h).cons c

theorem tokenAt_some_decomp {lit : List Char} {ok : Char → Bool} {l tok : List Char}
    (h : tokenAt lit ok none l = some tok) :
    ∃ c rest, l = lit ++ (c :: rest) ∧ ok c = true := by
  simp only [tokenAt] at h
  split_ifs at h with h1 h2 h3
  obtain ⟨suf, hsuf⟩ := (List.isPrefixOf_iff_prefix.mp h1)
  have hdrop : l.drop lit.length = suf := by rw [← hsuf, List.drop_left]
  rw [hdrop] at h2
  cases suf with
  | nil => simp at h2
  | cons c rest =>
    refine ⟨c, rest, hsuf.symm, ?_⟩
    by_contra hok
    simp only [Bool.not_eq_true] at hok
    rw [List.takeWhile_cons, hok] at h2
    simp at h2

theorem findTok_some_decomp (lit : List Char) (ok : Char → Bool) (l : List Char) :
    ∀ tok, findTok lit ok none l = some tok →
      ∃ pre c rest, l = pre ++ lit ++ (c :: rest) ∧ ok c = true := by
  induction l with
  | nil =>
    intro tok h
    simp only [findTok] at h
    obtain ⟨c, rest, hl, hok⟩ := tokenAt_some_decomp h
    exact ⟨[], c, rest, by rw [List.nil_append]; exact hl, hok⟩
  | cons a rest ih =>
    intro tok h
    simp only [findTok] at h
    cases hta : tokenAt lit ok none (a :: rest) with
    | some t =>
      obtain ⟨c, r2, hl, hok⟩ := tokenAt_some_decomp hta
      exact ⟨[], c, r2, by rw [List.nil_append]; exact hl, hok⟩
    | none =>
      rw [hta] at h
      simp only at h
      obtain ⟨pre, c, r2, hl, hok⟩ := ih tok h
      exact ⟨a :: pre, c, r2, by simp [hl], hok⟩

theorem anyOccFollowed_append_right (lit : List Char) (ok : Char → Bool) (pre l : List Char)
    (h : anyOccFollowed lit ok l = true) : anyOccFollowed lit ok (pre ++ l) = true := by
  induction pre with
  | nil => simpa using h
  | cons p t ih =>
    show anyOccFollowed lit ok (p :: (t ++ l)) = true
    simp only [anyOccFollowed, Bool.or_eq_true]
    exact Or.inr ih

theorem anyOccFollowed_here (lit : List Char) (ok : Char → Bool) (c : Char) (rest : List Char)
    (hok : ok c = true) : anyOccFollowed lit ok (lit ++ (c :: rest)) = true := by
  cases hl : lit with
  | nil =>
    subst hl
    simp only [List.nil_append, anyOccFollowed, Bool.or_eq_true]
    left
    simp [hok]
  | cons a t =>
    subst hl
    show anyOccFollowed (a :: t) ok (a :: (t ++ (c :: rest))) = true
    simp only [anyOccFollowed, Bool.or_eq_true]
    left
    rw [Bool.and_eq_true]
    refine ⟨List.isPrefixOf_iff_prefix.mpr ⟨c :: rest, rfl⟩, ?_⟩
    have hdrop : (a :: (t ++ (c :: rest))).drop (a :: t).length = c :: rest := by
      show ((a :: t) ++ (c :: rest)).drop (a :: t).length = c :: rest
      exact List.drop_left _ _
    rw [hdrop]
    simpa using hok

/-! ## Range lemmas for the discount tables -/

theorem valid_codes_range {code : String} {d : ℚ} (h : Tools.valid_codes code = some d) :
    0 ≤ d ∧ d ≤ 100 := by
  simp only [Tools.valid_codes] at h
  split_ifs at h <;> (injection h with h4; subst h4; norm_num)

theorem promo_db_range {code : String} {d : ℚ} (h : Assistant.promo_db code = some d) :
    0 ≤ d ∧ d ≤ 1 := by
  simp only [Assistant.promo_db] at h
  split_ifs at h <;> (injection h with h4; subst h4; norm_num)

/-- A reusable evaluation of `tools.estimate_shipping` under paid shipping. -/
theorem estimate_shipping_paid (now : Nat) (p : Tools.Product) (dd : Option String)
    (si : Tools.StoreInfo) (hsi : Tools.MOCK_STORES p.store = some si)
    (hlt : ¬ p.price ≥ si.free_shipping_threshold) (hnz : ¬ si.shipping_base = 0) :
    Tools.estimate_shipping now p dd = some ⟨true, si.shipping_base, 5, now + 5⟩ := by
  simp only [Tools.estimate_shipping, hsi, if_neg hlt, if_neg hnz]

/-- C3: an unknown code (or an unset one, in the alternate variant) is reported
invalid with percentage 0 and the price unchanged, and a known code is reported
valid with the table's percentage and `price * (1 - pct/100)`. -/
theorem claim_C3 :
    (∀ (p : Tools.Product) (code : String),
        code ∉ (["SAVE10", "SUMMER20", "WELCOME15"] : List String) →
        Tools.check_discount p code = ⟨code, false, 0, p.price⟩) ∧
    (∀ (p : Tools.Product) (code : String) (d : ℚ), Tools.valid_codes code = some d →
        Tools.check_discount p code = ⟨code, true, d, p.price * (1 - d / 100)⟩) ∧
    (∀ price : ℚ, Assistant.apply_promo_code price none = price) := by
  refine ⟨?_, ?_, ?_⟩
  · intro p code hc
    simp only [List.mem_cons, List.not_mem_nil, or_false, not_or] at hc
    obtain ⟨h1, h2, h3⟩ := hc
    simp [Tools.check_discount, Tools.valid_codes, h1, h2, h3]
  · intro p code d hd
    simp [Tools.check_discount, hd]
  · intro price
    simp [Assistant.apply_promo_code]

theorem claim_C3_witness :
    ("BOGUS" ∉ (["SAVE10", "SUMMER20", "WELCOME15"] : List String) ∧
      Tools.check_discount Tools.floralSkirt "BOGUS" =
        ⟨"BOGUS", false, 0, Tools.floralSkirt.price⟩) ∧
    (Tools.valid_codes "SAVE10" = some 10 ∧
      Tools.check_discount Tools.floralSkirt "SAVE10" =
        ⟨"SAVE10", true, 10, Tools.floralSkirt.price * (1 - 10 / 100)⟩) :=
  ⟨⟨by decide, claim_C3.1 Tools.floralSkirt "BOGUS" (by decide)⟩,
   ⟨by decide, claim_C3.2.1 Tools.floralSkirt "SAVE10" 10 (by decide)⟩⟩

/-- C4: for every product whose store is in the store table the shipping
estimate always exists and is available, with cost 0 exactly when the price
reaches the store's free-shipping threshold and the base cost otherwise,
3 estimated days when shipping is free and 5 otherwise, and the delivery date
`now + estimated_days`; the alternate variant is feasible for every input. -/
theorem claim_C4 :
    (∀ (now : Nat) (p : Tools.Product) (dd : Option String) (si : Tools.StoreInfo),
        Tools.MOCK_STORES p.store = some si →
        ∃ e, Tools.estimate_shipping now p dd = some e ∧
          e.available = true ∧
          e.cost = (if p.price ≥ si.free_shipping_threshold then 0 else si.shipping_base) ∧
          e.estimated_days = (if e.cost = 0 then 3 else 5) ∧
          e.estimated_delivery_date = now + e.estimated_days) ∧
    (∀ loc dd : String, (Assistant.estimate_shipping loc dd).feasible = true) := by
  constructor
  · intro now p dd si hsi
    have he : Tools.estimate_shipping now p dd =
        some ⟨true,
          if p.price ≥ si.free_shipping_threshold then 0 else si.shipping_base,
          if (if p.price ≥ si.free_shipping_threshold then (0 : ℚ) else si.shipping_base) = 0
            then 3 else 5,
          now + if (if p.price ≥ si.free_shipping_threshold then (0 : ℚ) else si.shipping_base) = 0
            then 3 else 5⟩ := by
      simp only [Tools.estimate_shipping, hsi]
    exact ⟨_, he, rfl, rfl, rfl, rfl⟩
  · intro loc dd
    rfl

theorem claim_C4_witness :
    Tools.MOCK_STORES Tools.floralSkirt.store = some ⟨q5_99, 50⟩ ∧
    (∃ e, Tools.estimate_shipping 0 Tools.floralSkirt none = some e ∧
      e.available = true ∧
      e.cost = (if Tools.floralSkirt.price ≥ (⟨q5_99, 50⟩ : Tools.StoreInfo).free_shipping_threshold
          then 0 else (⟨q5_99, 50⟩ : Tools.StoreInfo).shipping_base) ∧
      e.estimated_days = (if e.cost = 0 then 3 else 5) ∧
      e.estimated_delivery_date = 0 + e.estimated_days) :=
  ⟨by decide, claim_C4.1 0 Tools.floralSkirt none ⟨q5_99, 50⟩ (by decide)⟩

/-- C8: every known store resolves to its fixed policy record — SiteA's has 14
days to return and paid returns — and every unknown store yields the absent or
"No policy found" sentinel, in both variants, with no failure. -/
theorem claim_C8 :
    (Tools.get_return_policy "SiteA" =
      some ⟨"SiteA", 14, false, ["Store credit only", "Within 14 days"]⟩) ∧
    (Tools.get_return_policy "FashionHub" =
      some ⟨"FashionHub", 30, true, ["Items must be unworn", "Original tags attached"]⟩) ∧
    (Tools.get_return_policy "SneakerWorld" =
      some ⟨"SneakerWorld", 45, true, ["Unworn condition", "Original box required"]⟩) ∧
    (Tools.get_return_policy "SiteB" =
      some ⟨"SiteB", 30, true, ["Free returns within 30 days", "Original condition"]⟩) ∧
    (∀ s : String, s ∉ Tools.STORE_NAMES → Tools.get_return_policy s = none) ∧
    (∀ s : String,
        s ∉ (["FashionHub", "ShopStyle", "StyleMart", "TrendyStore", "DenimWorld"] : List String) →
        Assistant.check_return_policy s = "No policy found") := by
  refine ⟨by decide, by decide, by decide, by decide, ?_, ?_⟩
  · intro s hs
    simp only [Tools.STORE_NAMES, List.mem_cons, List.not_mem_nil, or_false, not_or] at hs
    obtain ⟨h1, h2, h3, h4⟩ := hs
    simp [Tools.get_return_policy, Tools.MOCK_RETURN_POLICIES, h1, h2, h3, h4]
  · intro s hs
    simp only [List.mem_cons, List.not_mem_nil, or_false, not_or] at hs
    obtain ⟨h1, h2, h3, h4, h5⟩ := hs
    simp [Assistant.check_return_policy, h1, h2, h3, h4, h5]

theorem claim_C8_witness :
    ("Unknown" ∉ Tools.STORE_NAMES ∧ Tools.get_return_policy "Unknown" = none) ∧
    ("Unknown" ∉ (["FashionHub", "ShopStyle", "StyleMart", "TrendyStore", "DenimWorld"] : List String) ∧
      Assistant.check_return_policy "Unknown" = "No policy found") :=
  ⟨⟨by decide, claim_C8.2.2.2.2.1 "Unknown" (by decide)⟩,
   ⟨by decide, claim_C8.2.2.2.2.2 "Unknown" (by decide)⟩⟩

/-- C10: a discount can never raise the price — for a non-negative price the
final price is at most the original, for any code; and in the alternate
variant FREESHIP carries a 0 discount and leaves the price unchanged. -/
theorem claim_C10 :
    (∀ (p : Tools.Product) (code : String), 0 ≤ p.price →
        (Tools.check_discount p code).final_price ≤ p.price) ∧
    (∀ (price : ℚ) (pc : Option String), 0 ≤ price →
        Assistant.apply_promo_code price pc ≤ price) ∧
    (Assistant.promo_db "FREESHIP" = some 0) ∧
    (∀ price : ℚ, Assistant.apply_promo_code price (some "FREESHIP") = price) := by
  have hfree : Assistant.promo_db "FREESHIP" = some 0 := by decide
  refine ⟨?_, ?_, hfree, ?_⟩
  · intro p code hp
    cases hv : Tools.valid_codes code with
    | none => simp [Tools.check_discount, hv]
    | some d =>
      obtain ⟨hd0, _⟩ := valid_codes_range hv
      simp only [Tools.check_discount, hv]
      exact mul_le_of_le_one_right hp
        (by linarith [div_nonneg hd0 (by norm_num : (0:ℚ) ≤ 100)])
  · intro price pc hp
    cases pc with
    | none => simp [Assistant.apply_promo_code]
    | some c =>
      cases hv : Assistant.promo_db c with
      | none => simp [Assistant.apply_promo_code, hv]
      | some d =>
        obtain ⟨hd0, hd1⟩ := promo_db_range hv
        simp only [Assistant.apply_promo_code, hv, Option.getD_some]
        exact mul_le_of_le_one_right hp (by linarith)
  · intro price
    simp [Assistant.apply_promo_code, hfree]

theorem claim_C10_witness :
    ((0 : ℚ) ≤ Tools.floralSkirt.price ∧
      (Tools.check_discount Tools.floralSkirt "SAVE10").final_price ≤ Tools.floralSkirt.price) ∧
    ((0 : ℚ) ≤ 100 ∧ Assistant.apply_promo_code 100 (some "SUMMER20") ≤ 100) :=
  ⟨⟨by decide, claim_C10.1 Tools.floralSkirt "SAVE10" (by decide)⟩,
   ⟨by norm_num, claim_C10.2.1 100 (some "SUMMER20") (by norm_num)⟩⟩

/-- C1: the end-to-end behaviour on the repository's own first example query.
The parse and search do match exactly product "1" and shipping is 5.99 with
delivery five days after the run date, but the lower-cased extraction yields
the code "save10", which `check_discount` reports invalid with the price
unchanged — the 10% discount to 32.391 is only produced for the unlowered
"SAVE10" (the claim's intended behaviour). -/
theorem claim_C1_run :
    Agent.parse_query Agent.exampleQuery =
      ⟨some "skirt", some 40, none, some "s", some "save10"⟩ ∧
    (Tools.search_products (Agent.parse_query Agent.exampleQuery)).map Tools.Product.id =
      ["1"] ∧
    Tools.search_products (Agent.parse_query Agent.exampleQuery) = [Tools.floralSkirt] ∧
    Tools.check_discount Tools.floralSkirt "save10" =
      ⟨"save10", false, 0, Tools.floralSkirt.price⟩ ∧
    Tools.floralSkirt.price = 35.99 ∧
    Tools.check_discount Tools.floralSkirt "SAVE10" = ⟨"SAVE10", true, 10, 32.391⟩ ∧
    (∀ now : Nat, Tools.estimate_shipping now Tools.floralSkirt none =
      some ⟨true, 5.99, 5, now + 5⟩) := by
  refine ⟨by decide, by decide, by decide, by decide, q35_99_eq, ?_, ?_⟩
  · have hv : Tools.valid_codes "SAVE10" = some 10 := by decide
    have harith : Tools.floralSkirt.price * (1 - 10 / 100) = 32.391 := by
      rw [show Tools.floralSkirt.price = (35.99 : ℚ) from q35_99_eq]; norm_num
    simp only [Tools.check_discount, hv, harith]
  · intro now
    rw [estimate_shipping_paid now Tools.floralSkirt none ⟨q5_99, 50⟩ (by decide) (by decide)
      (by decide)]
    rw [show (⟨q5_99, 50⟩ : Tools.StoreInfo).shipping_base = (5.99 : ℚ) from q5_99_eq]

theorem optCheck_iff {α : Type} (o : Option α) (f : α → Bool) :
    optCheck o f = true ↔ ∀ a, o = some a → f a = true := by
  cases o with
  | none => simp [optCheck]
  | some a => simp [optCheck]

/-- The search filter keeps exactly the products matching the amended
per-filter predicate. -/
theorem mem_search_products (q : Tools.Criteria) (p : Tools.Product) :
    p ∈ Tools.search_products q ↔ p ∈ Tools.MOCK_PRODUCTS ∧ Spec.matchesAmended q p := by
  simp only [Tools.search_products, List.mem_filter, Spec.matchesAmended, Bool.and_eq_true]
  constructor
  · rintro ⟨hm, ⟨⟨⟨hn, hp⟩, hc⟩, hs⟩⟩
    refine ⟨hm, ?_, ?_, ?_, ?_⟩
    · intro n hq
      exact (optCheck_iff _ _).mp hn n hq
    · intro m hq
      have := (optCheck_iff _ _).mp hp m hq
      simpa [not_lt] using this
    · intro c hq
      have := (optCheck_iff _ _).mp hc c hq
      simpa using this
    · intro s hq
      have := (optCheck_iff _ _).mp hs s hq
      simpa using this
  · rintro ⟨hm, h1, h2, h3, h4⟩
    refine ⟨hm, ⟨⟨⟨?_, ?_⟩, ?_⟩, ?_⟩⟩
    · exact (optCheck_iff _ _).mpr h1
    · exact (optCheck_iff _ _).mpr fun m hq => by simpa [not_lt] using h2 m hq
    · exact (optCheck_iff _ _).mpr fun c hq => by simpa using h3 c hq
    · exact (optCheck_iff _ _).mpr fun s hq => by simpa using h4 s hq

/-- The search filter of the alternate variant keeps exactly the products
matching its per-filter predicate. -/
theorem mem_search_products_main (name color : Option String) (min_price max_price : ℚ)
    (size : Option String) (p : Assistant.Product2) :
    p ∈ Assistant.search_products name color min_price max_price size ↔
      p ∈ Assistant.mock_products ∧
        Spec.matchesMainAmended name color min_price max_price size p := by
  simp only [Assistant.search_products, List.mem_filter, Spec.matchesMainAmended,
    Bool.and_eq_true]
  constructor
  · rintro ⟨hm, ⟨⟨⟨⟨hn, hc⟩, hmin⟩, hmax⟩, hs⟩⟩
    refine ⟨hm, ?_, ?_, ⟨?_, ?_⟩, ?_⟩
    · exact fun n hq => (optCheck_iff _ _).mp hn n hq
    · exact fun c hq => by simpa using (optCheck_iff _ _).mp hc c hq
    · simpa using hmin
    · simpa using hmax
    · exact fun s hq => by simpa using (optCheck_iff _ _).mp hs s hq
  · rintro ⟨hm, h1, h2, ⟨h3, h4⟩, h5⟩
    refine ⟨hm, ⟨⟨⟨⟨?_, ?_⟩, ?_⟩, ?_⟩, ?_⟩⟩
    · exact (optCheck_iff _ _).mpr h1
    · exact (optCheck_iff _ _).mpr fun c hq => by simpa using h2 c hq
    · simpa using h3
    · simpa using h4
    · exact (optCheck_iff _ _).mpr fun s hq => by simpa using h5 s hq

/-- C2 counterexample, one divergence per variant.  Primary variant: with the
claim's plain (case-sensitive) size equality, the result for size "m" disagrees
— the Casual Denim Jacket (size "M") is returned but does not satisfy the
claim's predicate.  Alternate variant: with the claim's case-insensitive color
equality, the Red Summer Dress (color "red") satisfies the claim's predicate
for color "Red" yet is not returned, because `main.search_products` compares
colors with plain `==`. -/
theorem claim_C2_counterexample :
    (Tools.denimJacket ∈ Tools.search_products Spec.sizeMCriteria ∧
      ¬ Spec.matchesClaim Spec.sizeMCriteria Tools.denimJacket) ∧
    (Assistant.redDress ∈ Assistant.mock_products ∧
      Spec.matchesClaimMain none (some "Red") 0 1000 none Assistant.redDress ∧
      Assistant.redDress ∉ Assistant.search_products none (some "Red") 0 1000 none) := by
  refine ⟨⟨by decide, ?_⟩, by decide, ?_, by decide⟩
  · intro h
    have := h.2.2.2 "m" rfl
    exact absurd this (by decide)
  · simp only [Spec.matchesClaimMain]
    refine ⟨fun n hn => ?_, fun c hc => ?_, ⟨by decide, by decide⟩, fun s hs => ?_⟩
    · simp at hn
    · injection hc with h
      subst h
      decide
    · simp at hs

/-- C2 (amended): in the primary variant, `search_products` returns exactly the
table products matching every provided filter — name case-insensitive
substring, price at most `max_price`, color case-insensitive equality and size
case-insensitive equality — in table order, with an empty match giving `[]` and
a color-"blue" query giving exactly the two blue products; in the alternate
variant, exactly the table products matching name as a case-insensitive
substring, color and size by plain equality and price within
`[min_price, max_price]`, likewise in table order, with the color-"blue" query
giving exactly the one (lowercase-tabled) blue product and an empty match
giving `[]`. -/
theorem claim_C2_amended :
    (∀ (q : Tools.Criteria) (p : Tools.Product),
        p ∈ Tools.search_products q ↔ p ∈ Tools.MOCK_PRODUCTS ∧ Spec.matchesAmended q p) ∧
    (∀ q : Tools.Criteria, (Tools.search_products q).Sublist Tools.MOCK_PRODUCTS) ∧
    Tools.search_products Spec.blueCriteria = [Tools.floralSkirt, Tools.denimJacket] ∧
    lowerStr Tools.floralSkirt.color = "blue" ∧
    lowerStr Tools.denimJacket.color = "blue" ∧
    Tools.search_products ⟨some "handbag", none, none, none, none⟩ = [] ∧
    (∀ (name color : Option String) (min_price max_price : ℚ) (size : Option String)
        (p : Assistant.Product2),
        p ∈ Assistant.search_products name color min_price max_price size ↔
          p ∈ Assistant.mock_products ∧
            Spec.matchesMainAmended name color min_price max_price size p) ∧
    (∀ (name color : Option String) (min_price max_price : ℚ) (size : Option String),
        (Assistant.search_products name color min_price max_price size).Sublist
          Assistant.mock_products) ∧
    Assistant.search_products none (some "blue") 0 1000 none = [Assistant.blueJeans] ∧
    lowerStr Assistant.blueJeans.color = "blue" ∧
    Assistant.search_products (some "handbag") none 0 1000 none = [] :=
  ⟨mem_search_products, fun _ => List.filter_sublist _,
    by decide, by decide, by decide, by decide,
    mem_search_products_main, fun _ _ _ _ _ => List.filter_sublist _,
    by decide, by decide, by decide⟩

/-- C7: price comparison synthesizes exactly one entry per known store other
than the product's own (in store-table order, no duplicates), each carrying the
base price plus the hash-derived offset `hash % 30 - 15` (always within
[-15, 14] ⊂ [-15, +15]), the in-stock flag from the same hash's parity, and the
constructed product URL; `hash` is the host hash function, a parameter here. -/
theorem claim_C7 (h : String → ℤ) (p : Tools.Product) :
    ((Tools.compare_prices h p).map Tools.PriceComparison.store =
      Tools.STORE_NAMES.filter fun s => s ≠ p.store) ∧
    ((Tools.compare_prices h p).map Tools.PriceComparison.store).Nodup ∧
    (Tools.compare_prices h p =
      (Tools.STORE_NAMES.filter fun s => s ≠ p.store).map fun store =>
        ⟨store, p.price + ((h (store ++ p.name) % 30 - 15 : ℤ) : ℚ),
          decide (h (store ++ p.name) % 2 ≠ 0),
          "https://" ++ lowerStr store ++ ".com/products/" ++ Tools.dashSpaces (lowerStr p.name)⟩) ∧
    (∀ s : String, -15 ≤ h (s ++ p.name) % 30 - 15 ∧ h (s ++ p.name) % 30 - 15 ≤ 14) := by
  have h1 : (Tools.compare_prices h p).map Tools.PriceComparison.store =
      Tools.STORE_NAMES.filter fun s => s ≠ p.store := by
    simp only [Tools.compare_prices, List.map_map]
    exact (List.map_congr_left fun s _ => rfl).trans (List.map_id _)
  refine ⟨h1, ?_, rfl, ?_⟩
  · rw [h1]
    exact List.Nodup.filter _ (by decide)
  · intro s
    have hnn := Int.emod_nonneg (h (s ++ p.name)) (by norm_num : (30 : ℤ) ≠ 0)
    have hlt := Int.emod_lt_of_pos (h (s ++ p.name)) (by norm_num : (0 : ℤ) < 30)
    omega

/-- C6 counterexample: the alternate variant's parser crashes (raises, modelled
by `Except.error`) on a query whose "under $" marker is not followed by digits,
because its `float(query.split("under $")[1].split()[0])` step is unguarded. -/
theorem claim_C6_counterexample :
    listContainsSub "buy it under $ now".data Agent.underLit = true ∧
    anyOccFollowed Agent.underLit Char.isDigit "buy it under $ now".data = false ∧
    Assistant.parse_query "buy it under $ now" = .error () :=
  ⟨by decide, by decide, rfl⟩

/-- C6 (amended): the `ShoppingAgent` parser guards its price regex, so when no
occurrence of "under $" in the (lower-cased) query is followed by a digit the
parse succeeds with the `max_price` filter absent; the alternate variant's
parser instead raises on such input, as its own spec text concedes. -/
theorem claim_C6_amended (q : String)
    (hno : anyOccFollowed Agent.underLit Char.isDigit (lowerStr q).data = false) :
    (Agent.parse_query q).max_price = none := by
  simp only [Agent.parse_query]
  by_cases hc : listContainsSub (lowerStr q).data Agent.underLit = true
  · rw [if_pos hc]
    cases hft : findTok Agent.underLit Char.isDigit none (lowerStr q).data with
    | none => simp [hft]
    | some tok =>
      obtain ⟨pre, c, rest, hdecomp, hok⟩ := findTok_some_decomp _ _ _ tok hft
      have htrue : anyOccFollowed Agent.underLit Char.isDigit (lowerStr q).data = true := by
        rw [hdecomp, List.append_assoc]
        exact anyOccFollowed_append_right _ _ pre _ (anyOccFollowed_here _ _ c rest hok)
      rw [htrue] at hno
      cases hno
  · rw [if_neg hc]

theorem claim_C6_witness :
    anyOccFollowed Agent.underLit Char.isDigit (lowerStr "under $ now").data = false ∧
    (Agent.parse_query "under $ now").max_price = none :=
  ⟨by decide, claim_C6_amended "under $ now" (by decide)⟩

/-- C5: a query with no recognized keyword parses to the empty criteria
mapping; the agent branch then performs no search at all, while searching with
no filters returns the whole product table; the alternate variant parses to its
all-default mapping and its default search likewise returns its whole table. -/
theorem claim_C5 (q : String)
    (hk : ∀ kw ∈ Spec.KEYWORDS,
        listContainsSub q.data kw.data = false ∧
        listContainsSub (lowerStr q).data kw.data = false) :
    Agent.parse_query q = Spec.emptyCriteria ∧
    Agent.searchTriggered (Agent.parse_query q) = false ∧
    Tools.search_products Spec.emptyCriteria = Tools.MOCK_PRODUCTS ∧
    Assistant.parse_query q = .ok ⟨none, "New York", none, none, none⟩ ∧
    Assistant.search_products none none 0 1000 none = Assistant.mock_products := by
  have hu := hk "under $" (by decide)
  have hsz := hk "size" (by decide)
  have hcd := hk "code" (by decide)
  have hpc := hk "promo code" (by decide)
  have hst := hk "shipping to " (by decide)
  have hwhite := hk "white" (by decide)
  have hblack := hk "black" (by decide)
  have hblue := hk "blue" (by decide)
  have hred := hk "red" (by decide)
  have hgreen := hk "green" (by decide)
  have hyellow := hk "yellow" (by decide)
  have hpurple := hk "purple" (by decide)
  have hpink := hk "pink" (by decide)
  have hskirt := hk "skirt" (by decide)
  have hsneakers := hk "sneakers" (by decide)
  have hjacket := hk "jacket" (by decide)
  have hdress := hk "dress" (by decide)
  have hjeans := hk "jeans" (by decide)
  have hparse : Agent.parse_query q = Spec.emptyCriteria := by
    simp only [Agent.parse_query, Agent.underLit, Agent.colorsList, Agent.productTypes,
      Spec.emptyCriteria, hu.2, hsz.2, hcd.2, List.find?]
    simp [hwhite.2, hblack.2, hblue.2, hred.2, hgreen.2, hyellow.2, hpurple.2, hpink.2,
      hskirt.2, hsneakers.2, hjacket.2, hdress.2]
  refine ⟨hparse, ?_, by decide, ?_, by decide⟩
  · rw [hparse]; rfl
  · simp only [Assistant.parse_query, Agent.underLit, hu.1, hpc.1, hst.1, List.find?]
    simp [hred.2, hblue.2, hblack.2, hdress.2, hjeans.2, hsneakers.2]
    rfl

theorem claim_C5_witness :
    (∀ kw ∈ Spec.KEYWORDS,
        listContainsSub "Hello there!".data kw.data = false ∧
        listContainsSub (lowerStr "Hello there!").data kw.data = false) ∧
    (Agent.parse_query "Hello there!" = Spec.emptyCriteria ∧
      Agent.searchTriggered (Agent.parse_query "Hello there!") = false ∧
      Tools.search_products Spec.emptyCriteria = Tools.MOCK_PRODUCTS ∧
      Assistant.parse_query "Hello there!" = .ok ⟨none, "New York", none, none, none⟩ ∧
      Assistant.search_products none none 0 1000 none = Assistant.mock_products) :=
  ⟨by decide, claim_C5 "Hello there!" (by decide)⟩

/-- C9: the agent's parser lower-cases the whole query before extracting, so
every extracted string value (name, color, size, discount code) is fixed by
lower-casing, i.e. all-lowercase; in particular an upper-case discount code in
the query comes out lower-cased. -/
theorem claim_C9 :
    (∀ q : String, Spec.critAllLower (Agent.parse_query q) = true) ∧
    Agent.parse_query "Apply discount code 'SAVE10' now" =
      ⟨none, none, none, none, some "save10"⟩ := by
  refine ⟨?_, by decide⟩
  intro q
  have hfix := mem_lowerStr_fixed q
  simp only [Spec.critAllLower, Agent.parse_query, Bool.and_eq_true]
  refine ⟨⟨⟨?_, ?_⟩, ?_⟩, ?_⟩
  · cases hf : Agent.productTypes.find? (fun t => listContainsSub (lowerStr q).data t.data) with
    | none => rfl
    | some t =>
      have ht := List.mem_of_find?_eq_some hf
      have hall : ∀ x ∈ Agent.productTypes, Spec.lowerFixed x = true := by decide
      exact hall t ht
  · cases hf : Agent.colorsList.find? (fun c => listContainsSub (lowerStr q).data c.data) with
    | none => rfl
    | some t =>
      have ht := List.mem_of_find?_eq_some hf
      have hall : ∀ x ∈ Agent.colorsList, Spec.lowerFixed x = true := by decide
      exact hall t ht
  · by_cases hc : listContainsSub (lowerStr q).data "size".data = true
    · rw [if_pos hc]
      cases hft : findTok Agent.sizeLit isWordChar none (lowerStr q).data with
      | none => rfl
      | some cs =>
        show Spec.lowerFixed (String.mk cs) = true
        exact lowerFixed_of_chars fun c hc2 =>
          hfix c ((findTok_sublist _ _ _ _ cs hft).subset hc2)
    · rw [if_neg hc]; rfl
  · by_cases hc : listContainsSub (lowerStr q).data "code".data = true
    · rw [if_pos hc]
      cases hft : findTok Agent.codeLit isWordChar (some squote) (lowerStr q).data with
      | none => rfl
      | some cs =>
        show Spec.lowerFixed (String.mk cs) = true
        exact lowerFixed_of_chars fun c hc2 =>
          hfix c ((findTok_sublist _ _ _ _ cs hft).subset hc2)
    · rw [if_neg hc]; rfl
